import Mathlib

/-!
Shallow embedding of the scheduling core of `src/TaskNap.py` (class
`SchedulerApp`, the `PreActionDialog`, and the module-level helpers).

Modelling conventions:
* `SchedulerApp.scheduled_events` is a Python dict `timer_id -> (timer,
  action_type, scheduled_datetime)`; it is embedded as an insertion-ordered
  association list `List (Nat × ScheduledEvent)` with dict-faithful insert
  (overwrite in place for an existing key, append for a fresh key) and
  `del` as key removal.
* A `QTimer` is relevant to the core only through whether it is still
  pending; the `timerActive` field records that, and a timer firing is the
  caller invoking `prepare_for_action` on the stored id.
* Wall-clock datetimes are `Int` seconds; `delay_seconds <= 0` in the
  Python becomes `scheduled_datetime - now ≤ 0`.
* Side effects on external collaborators are collected in an `Effects`
  record: `execCalls` are the `perform_system_action` invocations (the
  ActionExecutor), `logs` are the messages handed to `log_event`, and
  `preNotified` records whether the `PreActionDialog` pre-notification was
  shown. `infoLabel` mirrors `self.info_label.setText`.
* Status and log strings are embedded verbatim where a fixed string appears
  in the source; the wall-clock timestamps the source interpolates via
  `datetime.now()` are elided from them, since the embedding has no clock
  and no claim depends on them.
* The modal `dialog.exec_()` call blocks until the dialog accepts (countdown
  reached zero) or the user rejects; the outcome visible to
  `prepare_for_action` is `dialog.user_canceled`, passed in as the
  `user_canceled : Bool` argument. The dialog countdown itself is embedded
  separately (`PreActionDialog`, `on_timeout`, `PreActionDialog.reject`).
-/

namespace TaskNap

/-- The three power actions of `schedule_action` / `perform_system_action`. -/
inductive ActionKind where
  | shutdown
  | restart
  | sleep
deriving DecidableEq, Repr

/-- The Python string naming an action (`'shutdown'`, `'restart'`, `'sleep'`). -/
def ActionKind.str : ActionKind → String
  | .shutdown => "shutdown"
  | .restart => "restart"
  | .sleep => "sleep"

/-- The configuration keys the scheduling core reads from `QSettings`
(`notifications/enable`, `notifications/seconds_before`, `logging/enable`,
`auto_sleep/enable`, `auto_sleep/timeout_minutes`). -/
structure Config where
  notifyEnabled : Bool
  notifySeconds : Nat
  loggingEnabled : Bool
  autoSleepEnabled : Bool
  timeoutMinutes : Nat
deriving DecidableEq, Repr

/-- One registry entry: the tuple `(timer, action_type, scheduled_datetime)`
stored in `self.scheduled_events[timer_id]`. -/
structure ScheduledEvent where
  timerActive : Bool
  action : ActionKind
  firesAt : Int
deriving DecidableEq, Repr

/-- The mutable state of `SchedulerApp` that the scheduling core touches:
the event dict, the id counter `last_timer_id`, and the status label. -/
structure AppState where
  scheduled_events : List (Nat × ScheduledEvent)
  last_timer_id : Nat
  infoLabel : String
deriving DecidableEq, Repr

/-- Collected calls to external collaborators during one operation. -/
structure Effects where
  execCalls : List ActionKind
  logs : List String
  preNotified : Bool
deriving DecidableEq, Repr

/-- An operation that touches no collaborator. -/
def noEffects : Effects := ⟨[], [], false⟩

/-- `SchedulerApp.__init__`: empty dict, `last_timer_id = 0`,
label `No scheduled events.`. -/
def initState : AppState := ⟨[], 0, "No scheduled events."⟩

/-- The keys currently present in the registry dict. -/
def keys (st : AppState) : List Nat := st.scheduled_events.map Prod.fst

/-- Python dict assignment `d[k] = v`: overwrite in place when `k` is
present, append otherwise (dicts preserve insertion order). -/
def dictInsert (es : List (Nat × ScheduledEvent)) (k : Nat) (v : ScheduledEvent) :
    List (Nat × ScheduledEvent) :=
  match List.lookup k es with
  | some _ => es.map (fun p => if p.fst = k then (k, v) else p)
  | none => es ++ [(k, v)]

/-- Python `del d[k]`: remove the mapping for `k`. -/
def removeEvent (es : List (Nat × ScheduledEvent)) (k : Nat) :
    List (Nat × ScheduledEvent) :=
  es.filter (fun p => p.fst ≠ k)

/-- The info-label text of the failed-schedule branch. -/
def pastTimeMsg : String := "The selected time is in the past. Please choose a future time."

/-- `SchedulerApp.schedule_action`: compute the delay from the picked
datetime; if it is not strictly positive, report and change nothing;
otherwise assign `last_timer_id + 1`, start a single-shot timer, store the
event and log it. -/
def schedule_action (st : AppState) (action_type : ActionKind)
    (scheduled_datetime now : Int) : AppState × Effects :=
  let delay_seconds := scheduled_datetime - now
  if delay_seconds ≤ 0 then
    ({ st with infoLabel := pastTimeMsg }, noEffects)
  else
    let timer_id := st.last_timer_id + 1
    let ev : ScheduledEvent := ⟨true, action_type, scheduled_datetime⟩
    let events := dictInsert st.scheduled_events timer_id ev
    let logMsg := "Scheduled " ++ action_type.str ++ " at " ++ toString scheduled_datetime
    let msg := logMsg ++ ". (" ++ toString events.length ++ " events scheduled.)"
    ({ scheduled_events := events, last_timer_id := timer_id, infoLabel := msg },
     ⟨[], [logMsg], false⟩)

/-- `SchedulerApp.perform_system_action`: issues the OS command for the
action; observable to the core as exactly one ActionExecutor call. -/
def perform_system_action (action_type : ActionKind) : List ActionKind :=
  [action_type]

/-- `SchedulerApp.execute_action`: if the id is gone, do nothing; otherwise
delete the entry, perform the system action and log. -/
def execute_action (st : AppState) (timer_id : Nat) : AppState × Effects :=
  match List.lookup timer_id st.scheduled_events with
  | none => (st, noEffects)
  | some ev =>
    let events := removeEvent st.scheduled_events timer_id
    let logMsg := "Executed " ++ ev.action.str
    let msg :=
      if events.length > 0 then
        "Executed " ++ ev.action.str ++ ". " ++ toString events.length ++
          " event(s) remain scheduled."
      else
        "Executed " ++ ev.action.str ++ ". No more scheduled events."
    ({ scheduled_events := events, last_timer_id := st.last_timer_id, infoLabel := msg },
     ⟨perform_system_action ev.action, [logMsg], false⟩)

/-- `SchedulerApp.cancel_event`: if the id is present, stop its timer,
delete the entry and log; silently do nothing for an absent id. -/
def cancel_event (st : AppState) (timer_id : Nat) (user_triggered : Bool) :
    AppState × Effects :=
  match List.lookup timer_id st.scheduled_events with
  | none => (st, noEffects)
  | some ev =>
    let events := removeEvent st.scheduled_events timer_id
    let baseMsg := "Canceled " ++ ev.action.str ++ " scheduled at " ++ toString ev.firesAt
    let msg := if user_triggered then baseMsg ++ " (by user)." else baseMsg
    ({ scheduled_events := events, last_timer_id := st.last_timer_id, infoLabel := msg },
     ⟨[], [msg], false⟩)

/-- `SchedulerApp.prepare_for_action`: runs when a countdown timer fires.
An id no longer in the dict is ignored. With notifications off the action is
executed directly; with notifications on the `PreActionDialog` is shown
(modally) and the outcome `user_canceled` decides between `cancel_event`
(user-triggered) and `execute_action`. -/
def prepare_for_action (cfg : Config) (st : AppState) (timer_id : Nat)
    (user_canceled : Bool) : AppState × Effects :=
  match List.lookup timer_id st.scheduled_events with
  | none => (st, noEffects)
  | some _ =>
    if !cfg.notifyEnabled then
      execute_action st timer_id
    else
      if user_canceled then
        let r := cancel_event st timer_id true
        (r.fst, { r.snd with preNotified := true })
      else
        let r := execute_action st timer_id
        (r.fst, { r.snd with preNotified := true })

/-- The fixed info-label text of `cancel_all_scheduled_events` when events
were canceled. -/
def cancelAllMsg : String := "All scheduled events have been canceled."

/-- The info-label text of `cancel_all_scheduled_events` on an empty dict. -/
def noEventsMsg : String := "No events to cancel."

/-- `SchedulerApp.cancel_all_scheduled_events`: on an empty dict only the
label changes; otherwise every timer is stopped, every entry deleted (one
log line each) and the fixed completion message shown. -/
def cancel_all_scheduled_events (st : AppState) : AppState × Effects :=
  if st.scheduled_events.isEmpty then
    ({ st with infoLabel := noEventsMsg }, noEffects)
  else
    let logs := st.scheduled_events.map
      (fun p => "Canceled " ++ p.snd.action.str ++ " scheduled at " ++ toString p.snd.firesAt)
    ({ scheduled_events := [], last_timer_id := st.last_timer_id, infoLabel := cancelAllMsg },
     ⟨[], logs, false⟩)

/-- `SchedulerApp.check_inactivity`: if auto-sleep is enabled and the probed
idle time reaches `timeout_minutes * 60` seconds, call
`perform_system_action("sleep")` directly. It touches neither the event dict
nor the id counter nor the label. -/
def check_inactivity (cfg : Config) (st : AppState) (idle_seconds : Nat) :
    AppState × Effects :=
  if !cfg.autoSleepEnabled then
    (st, noEffects)
  else
    let inactivity_threshold := cfg.timeoutMinutes * 60
    if idle_seconds ≥ inactivity_threshold then
      (st, ⟨perform_system_action ActionKind.sleep, [], false⟩)
    else
      (st, noEffects)

/-- Errors a log write can hit (the file cannot be opened or written). -/
inductive LogErr where
  | cannotOpen
  | writeFailed
deriving DecidableEq, Repr

/-- `SchedulerApp.log_event`: return immediately when logging is disabled;
otherwise open the log file and append the line. The Python body has no
`try`/`except`, so the outcome of the write is returned as is. -/
def log_event (enable_logging : Bool) (writeLine : String → Except LogErr Unit)
    (message : String) : Except LogErr Unit :=
  if !enable_logging then Except.ok () else writeLine message

/-- `PreActionDialog`: the timed notification dialog. `closed` records that
`accept()` or `reject()` ended the modal loop. -/
structure PreActionDialog where
  action_type : ActionKind
  remaining_time : Int
  user_canceled : Bool
  closed : Bool
deriving DecidableEq, Repr

/-- `PreActionDialog.__init__`: countdown starts at `timeout`, not canceled,
dialog open with its one-second timer running. -/
def initDialog (a : ActionKind) (timeout : Nat) : PreActionDialog :=
  ⟨a, (timeout : Int), false, false⟩

/-- `PreActionDialog.on_timeout`: one tick of the one-second timer. Decrement
`remaining_time`; at zero or below, stop the timer and `accept()` (close
without canceling); otherwise re-render the remaining seconds. A closed
dialog ticks no further. -/
def on_timeout (d : PreActionDialog) : PreActionDialog :=
  if d.closed then d
  else
    let r := d.remaining_time - 1
    if r ≤ 0 then { d with remaining_time := r, closed := true }
    else { d with remaining_time := r }

/-- `PreActionDialog.reject`: the user pressed the cancel button; record the
cancellation and close. -/
def PreActionDialog.reject (d : PreActionDialog) : PreActionDialog :=
  { d with user_canceled := true, closed := true }

/-- The operations that can reach the scheduling core from the event loop:
a schedule request, a countdown fire (with the dialog outcome), a single
cancel, cancel-all, and one watchdog poll reporting the probed idle time. -/
inductive Op where
  | schedule (a : ActionKind) (t now : Int)
  | fire (timer_id : Nat) (user_canceled : Bool)
  | cancel (timer_id : Nat) (user_triggered : Bool)
  | cancelAll
  | poll (idle_seconds : Nat)
deriving DecidableEq, Repr

/-- Dispatch one operation to the function of `SchedulerApp` it invokes. -/
def applyOp (cfg : Config) (st : AppState) : Op → AppState × Effects
  | .schedule a t now => schedule_action st a t now
  | .fire timer_id uc => prepare_for_action cfg st timer_id uc
  | .cancel timer_id ut => cancel_event st timer_id ut
  | .cancelAll => cancel_all_scheduled_events st
  | .poll idle => check_inactivity cfg st idle

/-- The state after running a sequence of operations. -/
def runState (cfg : Config) (st : AppState) : List Op → AppState
  | [] => st
  | op :: ops => runState cfg (applyOp cfg st op).fst ops

/-- The ids handed out along a run: an operation that advanced
`last_timer_id` assigned the new value as the fresh event id. -/
def assignedIds (cfg : Config) (st : AppState) : List Op → List Nat
  | [] => []
  | op :: ops =>
    (if st.last_timer_id < ((applyOp cfg st op).fst).last_timer_id
      then [((applyOp cfg st op).fst).last_timer_id] else []) ++
      assignedIds cfg ((applyOp cfg st op).fst) ops

/-! ### Basic dictionary lemmas -/

theorem lookup_removeEvent_self (es : List (Nat × ScheduledEvent)) (k : Nat) :
    List.lookup k (removeEvent es k) = none := by
  simp [removeEvent]
  intro a b _ hne
  exact fun hk => hne hk.symm

theorem lookup_eq_none_of_not_mem_keys (es : List (Nat × ScheduledEvent)) (k : Nat)
    (h : k ∉ es.map Prod.fst) : List.lookup k es = none := by
  simp only [List.mem_map, not_exists, not_and] at h
  simp
  intro a b hab
  exact fun hk => h (a, b) hab hk.symm

theorem not_mem_keys_of_lookup_eq_none (es : List (Nat × ScheduledEvent)) (k : Nat)
    (h : List.lookup k es = none) : k ∉ es.map Prod.fst := by
  intro hmem
  rw [List.mem_map] at hmem
  obtain ⟨p, hp, hk⟩ := hmem
  simp at h
  exact h p.1 p.2 (by simpa using hp) hk.symm

theorem keys_removeEvent_sublist (es : List (Nat × ScheduledEvent)) (k : Nat) :
    ((removeEvent es k).map Prod.fst).Sublist (es.map Prod.fst) :=
  (List.filter_sublist es).map Prod.fst

/-! ### Shape lemmas for the per-event operations -/

theorem execute_action_absent (st : AppState) (timer_id : Nat)
    (h : List.lookup timer_id st.scheduled_events = none) :
    execute_action st timer_id = (st, noEffects) := by
  unfold execute_action
  rw [h]

theorem cancel_event_absent (st : AppState) (timer_id : Nat) (ut : Bool)
    (h : List.lookup timer_id st.scheduled_events = none) :
    cancel_event st timer_id ut = (st, noEffects) := by
  unfold cancel_event
  rw [h]

theorem prepare_for_action_absent (cfg : Config) (st : AppState) (timer_id : Nat) (uc : Bool)
    (h : List.lookup timer_id st.scheduled_events = none) :
    prepare_for_action cfg st timer_id uc = (st, noEffects) := by
  unfold prepare_for_action
  rw [h]

theorem execute_action_found (st : AppState) (timer_id : Nat) (ev : ScheduledEvent)
    (h : List.lookup timer_id st.scheduled_events = some ev) :
    (execute_action st timer_id).fst.scheduled_events =
        removeEvent st.scheduled_events timer_id ∧
      (execute_action st timer_id).fst.last_timer_id = st.last_timer_id ∧
      (execute_action st timer_id).snd.execCalls = [ev.action] := by
  unfold execute_action
  rw [h]
  exact ⟨rfl, rfl, rfl⟩

theorem cancel_event_found (st : AppState) (timer_id : Nat) (ut : Bool) (ev : ScheduledEvent)
    (h : List.lookup timer_id st.scheduled_events = some ev) :
    (cancel_event st timer_id ut).fst.scheduled_events =
        removeEvent st.scheduled_events timer_id ∧
      (cancel_event st timer_id ut).fst.last_timer_id = st.last_timer_id ∧
      (cancel_event st timer_id ut).snd.execCalls = [] := by
  unfold cancel_event
  rw [h]
  exact ⟨rfl, rfl, rfl⟩

/-- After any countdown fire the fired id is gone from the registry (it was
either executed, canceled from the dialog, or already absent). -/
theorem prepare_removes_self (cfg : Config) (st : AppState) (timer_id : Nat) (uc : Bool) :
    List.lookup timer_id
      ((prepare_for_action cfg st timer_id uc).fst).scheduled_events = none := by
  cases hl : List.lookup timer_id st.scheduled_events with
  | none => rw [prepare_for_action_absent cfg st timer_id uc hl]; exact hl
  | some ev =>
    unfold prepare_for_action
    rw [hl]
    by_cases hn : cfg.notifyEnabled
    · simp only [hn, Bool.not_true, Bool.false_eq_true, if_false]
      cases uc with
      | true => simpa [(cancel_event_found st timer_id true ev hl).1] using
          lookup_removeEvent_self st.scheduled_events timer_id
      | false => simpa [(execute_action_found st timer_id ev hl).1] using
          lookup_removeEvent_self st.scheduled_events timer_id
    · simp only [Bool.not_eq_true] at hn
      simp only [hn, Bool.not_false, if_true]
      rw [(execute_action_found st timer_id ev hl).1]
      exact lookup_removeEvent_self st.scheduled_events timer_id

/-- After `cancel_event` the canceled id is gone from the registry. -/
theorem cancel_removes_self (st : AppState) (timer_id : Nat) (ut : Bool) :
    List.lookup timer_id ((cancel_event st timer_id ut).fst).scheduled_events = none := by
  cases hl : List.lookup timer_id st.scheduled_events with
  | none => rw [cancel_event_absent st timer_id ut hl]; exact hl
  | some ev =>
    rw [(cancel_event_found st timer_id ut ev hl).1]
    exact lookup_removeEvent_self st.scheduled_events timer_id

/-- A countdown fire leaves the registry unchanged or removes exactly the
fired id, and never touches the id counter. -/
theorem prepare_events_cases (cfg : Config) (st : AppState) (timer_id : Nat) (uc : Bool) :
    ((prepare_for_action cfg st timer_id uc).fst.scheduled_events = st.scheduled_events ∨
      (prepare_for_action cfg st timer_id uc).fst.scheduled_events =
        removeEvent st.scheduled_events timer_id) ∧
      (prepare_for_action cfg st timer_id uc).fst.last_timer_id = st.last_timer_id := by
  cases hl : List.lookup timer_id st.scheduled_events with
  | none => rw [prepare_for_action_absent cfg st timer_id uc hl]; exact ⟨Or.inl rfl, rfl⟩
  | some ev =>
    unfold prepare_for_action
    rw [hl]
    by_cases hn : cfg.notifyEnabled
    · simp only [hn, Bool.not_true, Bool.false_eq_true, if_false]
      cases uc with
      | true =>
        exact ⟨Or.inr (cancel_event_found st timer_id true ev hl).1,
          (cancel_event_found st timer_id true ev hl).2.1⟩
      | false =>
        exact ⟨Or.inr (execute_action_found st timer_id ev hl).1,
          (execute_action_found st timer_id ev hl).2.1⟩
    · simp only [Bool.not_eq_true] at hn
      simp only [hn, Bool.not_false, if_true]
      exact ⟨Or.inr (execute_action_found st timer_id ev hl).1,
        (execute_action_found st timer_id ev hl).2.1⟩

/-- `cancel_event` leaves the registry unchanged or removes exactly the
canceled id, and never touches the id counter. -/
theorem cancel_events_cases (st : AppState) (timer_id : Nat) (ut : Bool) :
    ((cancel_event st timer_id ut).fst.scheduled_events = st.scheduled_events ∨
      (cancel_event st timer_id ut).fst.scheduled_events =
        removeEvent st.scheduled_events timer_id) ∧
      (cancel_event st timer_id ut).fst.last_timer_id = st.last_timer_id := by
  cases hl : List.lookup timer_id st.scheduled_events with
  | none => rw [cancel_event_absent st timer_id ut hl]; exact ⟨Or.inl rfl, rfl⟩
  | some ev =>
    exact ⟨Or.inr (cancel_event_found st timer_id ut ev hl).1,
      (cancel_event_found st timer_id ut ev hl).2.1⟩

/-! ### Dictionary-insert and absence-preservation lemmas -/

theorem mem_keys_of_lookup_eq_some (es : List (Nat × ScheduledEvent)) (k : Nat)
    (ev : ScheduledEvent) (h : List.lookup k es = some ev) : k ∈ es.map Prod.fst := by
  by_contra hmem
  rw [lookup_eq_none_of_not_mem_keys es k hmem] at h
  cases h

theorem dictInsert_fresh (es : List (Nat × ScheduledEvent)) (k : Nat) (v : ScheduledEvent)
    (h : List.lookup k es = none) : dictInsert es k v = es ++ [(k, v)] := by
  unfold dictInsert
  rw [h]

theorem lookup_dictInsert_ne (es : List (Nat × ScheduledEvent)) (k j : Nat)
    (v : ScheduledEvent) (hne : j ≠ k) (h : List.lookup j es = none) :
    List.lookup j (dictInsert es k v) = none := by
  have hjk : j ∉ es.map Prod.fst := not_mem_keys_of_lookup_eq_none es j h
  unfold dictInsert
  cases hl : List.lookup k es with
  | some w =>
    apply lookup_eq_none_of_not_mem_keys
    intro hmem
    rw [List.mem_map] at hmem
    obtain ⟨p, hp, hpk⟩ := hmem
    rw [List.mem_map] at hp
    obtain ⟨q, hq, hqp⟩ := hp
    by_cases hqk : q.fst = k
    · rw [if_pos hqk] at hqp
      rw [← hqp] at hpk
      exact hne hpk.symm
    · rw [if_neg hqk] at hqp
      rw [← hqp] at hpk
      exact hjk (List.mem_map.mpr ⟨q, hq, hpk⟩)
  | none =>
    apply lookup_eq_none_of_not_mem_keys
    rw [List.map_append]
    rw [List.mem_append]
    intro hmem
    cases hmem with
    | inl hm => exact hjk hm
    | inr hm => exact hne (by simpa using hm)

theorem lookup_removeEvent_none (es : List (Nat × ScheduledEvent)) (k j : Nat)
    (h : List.lookup j es = none) : List.lookup j (removeEvent es k) = none := by
  apply lookup_eq_none_of_not_mem_keys
  intro hmem
  exact not_mem_keys_of_lookup_eq_none es j h ((keys_removeEvent_sublist es k).subset hmem)

/-- A watchdog poll returns the state it was given, in every branch. -/
theorem check_inactivity_fst (cfg : Config) (st : AppState) (idle_seconds : Nat) :
    (check_inactivity cfg st idle_seconds).fst = st := by
  unfold check_inactivity
  by_cases h1 : cfg.autoSleepEnabled
  · by_cases h2 : idle_seconds ≥ cfg.timeoutMinutes * 60 <;> simp [h1, h2]
  · simp [h1]

/-- The state components of a successful (future-time) schedule request. -/
theorem schedule_action_future (st : AppState) (a : ActionKind) (t now : Int)
    (h : ¬ t - now ≤ 0) :
    (schedule_action st a t now).fst.scheduled_events =
        dictInsert st.scheduled_events (st.last_timer_id + 1) ⟨true, a, t⟩ ∧
      (schedule_action st a t now).fst.last_timer_id = st.last_timer_id + 1 := by
  unfold schedule_action
  rw [if_neg h]
  exact ⟨rfl, rfl⟩

/-- The state components of `cancel_all_scheduled_events`. -/
theorem cancel_all_events_cases (st : AppState) :
    (cancel_all_scheduled_events st).fst.scheduled_events = [] ∧
      (cancel_all_scheduled_events st).fst.last_timer_id = st.last_timer_id := by
  unfold cancel_all_scheduled_events
  by_cases h : st.scheduled_events.isEmpty
  · rw [if_pos h]
    exact ⟨List.isEmpty_iff.mp h, rfl⟩
  · rw [if_neg h]
    exact ⟨rfl, rfl⟩

/-- No operation ever decreases the id counter. -/
theorem applyOp_last_mono (cfg : Config) (st : AppState) (op : Op) :
    st.last_timer_id ≤ ((applyOp cfg st op).fst).last_timer_id := by
  cases op with
  | schedule a t now =>
    simp only [applyOp]
    by_cases hd : t - now ≤ 0
    · unfold schedule_action
      rw [if_pos hd]
    · rw [(schedule_action_future st a t now hd).2]
      omega
  | fire timer_id uc =>
    simp only [applyOp]
    rw [(prepare_events_cases cfg st timer_id uc).2]
  | cancel timer_id ut =>
    simp only [applyOp]
    rw [(cancel_events_cases st timer_id ut).2]
  | cancelAll =>
    simp only [applyOp]
    rw [(cancel_all_events_cases st).2]
  | poll idle =>
    simp only [applyOp]
    rw [check_inactivity_fst]

/-- An id that is absent from the registry and not beyond the id counter can
never reappear: every operation preserves both facts. -/
theorem applyOp_preserves_absent (cfg : Config) (st : AppState) (op : Op) (j : Nat)
    (h1 : List.lookup j st.scheduled_events = none) (h2 : j ≤ st.last_timer_id) :
    List.lookup j ((applyOp cfg st op).fst).scheduled_events = none ∧
      j ≤ ((applyOp cfg st op).fst).last_timer_id := by
  refine ⟨?_, le_trans h2 (applyOp_last_mono cfg st op)⟩
  cases op with
  | schedule a t now =>
    simp only [applyOp]
    by_cases hd : t - now ≤ 0
    · unfold schedule_action
      rw [if_pos hd]
      exact h1
    · rw [(schedule_action_future st a t now hd).1]
      exact lookup_dictInsert_ne _ _ _ _ (by omega) h1
  | fire timer_id uc =>
    simp only [applyOp]
    cases (prepare_events_cases cfg st timer_id uc).1 with
    | inl he => rw [he]; exact h1
    | inr he => rw [he]; exact lookup_removeEvent_none _ _ _ h1
  | cancel timer_id ut =>
    simp only [applyOp]
    cases (cancel_events_cases st timer_id ut).1 with
    | inl he => rw [he]; exact h1
    | inr he => rw [he]; exact lookup_removeEvent_none _ _ _ h1
  | cancelAll =>
    simp only [applyOp]
    rw [(cancel_all_events_cases st).1]
    rfl
  | poll idle =>
    simp only [applyOp]
    rw [check_inactivity_fst]
    exact h1

/-- Trace version of `applyOp_preserves_absent`. -/
theorem run_preserves_absent (cfg : Config) (j : Nat) :
    ∀ (ops : List Op) (st : AppState),
      List.lookup j st.scheduled_events = none → j ≤ st.last_timer_id →
      List.lookup j (runState cfg st ops).scheduled_events = none := by
  intro ops
  induction ops with
  | nil =>
    intro st h1 _
    exact h1
  | cons op ops ih =>
    intro st h1 h2
    obtain ⟨h1', h2'⟩ := applyOp_preserves_absent cfg st op j h1 h2
    simp only [runState]
    exact ih _ h1' h2'

/-! ### The registry invariant -/

/-- Each id in the registry maps to exactly one (necessarily non-terminal)
entry, and no id exceeds the counter that assigned it. -/
def Inv (st : AppState) : Prop :=
  (keys st).Nodup ∧ ∀ k ∈ keys st, k ≤ st.last_timer_id

theorem inv_init : Inv initState := by
  constructor
  · exact List.nodup_nil
  · intro k hk
    cases hk

theorem inv_of_remove (st st2 : AppState) (k : Nat) (hinv : Inv st)
    (he : st2.scheduled_events = st.scheduled_events ∨
      st2.scheduled_events = removeEvent st.scheduled_events k)
    (hl : st2.last_timer_id = st.last_timer_id) : Inv st2 := by
  constructor
  · show (st2.scheduled_events.map Prod.fst).Nodup
    cases he with
    | inl h => rw [h]; exact hinv.1
    | inr h =>
      rw [h]
      exact List.Nodup.sublist (keys_removeEvent_sublist _ _) hinv.1
  · intro j hj
    rw [hl]
    simp only [keys] at hj
    cases he with
    | inl h =>
      rw [h] at hj
      exact hinv.2 j hj
    | inr h =>
      rw [h] at hj
      exact hinv.2 j ((keys_removeEvent_sublist _ _).subset hj)

theorem inv_applyOp (cfg : Config) (st : AppState) (op : Op) (hinv : Inv st) :
    Inv ((applyOp cfg st op).fst) := by
  cases op with
  | schedule a t now =>
    simp only [applyOp]
    by_cases hd : t - now ≤ 0
    · unfold schedule_action
      rw [if_pos hd]
      exact hinv
    · have hfresh : List.lookup (st.last_timer_id + 1) st.scheduled_events = none := by
        apply lookup_eq_none_of_not_mem_keys
        intro hmem
        have := hinv.2 _ hmem
        omega
      constructor
      · show ((schedule_action st a t now).fst.scheduled_events.map Prod.fst).Nodup
        rw [(schedule_action_future st a t now hd).1, dictInsert_fresh _ _ _ hfresh,
          List.map_append]
        rw [List.nodup_append]
        refine ⟨hinv.1, List.nodup_singleton _, ?_⟩
        intro x hx hx'
        simp only [List.map_cons, List.map_nil, List.mem_singleton] at hx'
        rw [hx'] at hx
        have := hinv.2 _ hx
        omega
      · intro j hj
        simp only [keys] at hj
        rw [(schedule_action_future st a t now hd).1, dictInsert_fresh _ _ _ hfresh,
          List.map_append] at hj
        rw [(schedule_action_future st a t now hd).2]
        rw [List.mem_append] at hj
        cases hj with
        | inl hm =>
          have := hinv.2 _ hm
          omega
        | inr hm =>
          simp only [List.map_cons, List.map_nil, List.mem_singleton] at hm
          omega
  | fire timer_id uc =>
    simp only [applyOp]
    exact inv_of_remove st _ timer_id hinv (prepare_events_cases cfg st timer_id uc).1
      (prepare_events_cases cfg st timer_id uc).2
  | cancel timer_id ut =>
    simp only [applyOp]
    exact inv_of_remove st _ timer_id hinv (cancel_events_cases st timer_id ut).1
      (cancel_events_cases st timer_id ut).2
  | cancelAll =>
    simp only [applyOp]
    constructor
    · show ((cancel_all_scheduled_events st).fst.scheduled_events.map Prod.fst).Nodup
      rw [(cancel_all_events_cases st).1]
      exact List.nodup_nil
    · intro j hj
      simp only [keys] at hj
      rw [(cancel_all_events_cases st).1] at hj
      cases hj
  | poll idle =>
    simp only [applyOp]
    rw [check_inactivity_fst]
    exact hinv

theorem inv_runState (cfg : Config) :
    ∀ (ops : List Op) (st : AppState), Inv st → Inv (runState cfg st ops) := by
  intro ops
  induction ops with
  | nil =>
    intro st h
    exact h
  | cons op ops ih =>
    intro st h
    simp only [runState]
    exact ih _ (inv_applyOp cfg st op h)

/-! ### Concrete fixtures used by witnesses and counterexamples -/

/-- A configuration with pre-notification off. -/
def cfgOff : Config := ⟨false, 30, false, false, 30⟩

/-- A configuration with pre-notification on (lead time 30 s). -/
def cfgOn : Config := ⟨true, 30, false, false, 30⟩

/-- Auto-sleep on with a one-minute timeout, pre-notification on. -/
def cfgAutoNotify : Config := ⟨true, 30, false, true, 1⟩

def evShutdown : ScheduledEvent := ⟨true, ActionKind.shutdown, 100⟩

def evRestart : ScheduledEvent := ⟨true, ActionKind.restart, 200⟩

def evSleep : ScheduledEvent := ⟨true, ActionKind.sleep, 300⟩

/-- A registry holding one armed shutdown event under id 1. -/
def stOne : AppState := ⟨[(1, evShutdown)], 1, "x"⟩

/-- A registry holding two armed events. -/
def stTwo : AppState := ⟨[(1, evShutdown), (2, evRestart)], 2, "x"⟩

/-- A registry holding three armed events. -/
def stThree : AppState := ⟨[(1, evShutdown), (2, evRestart), (3, evSleep)], 3, "x"⟩

/-! ### The claims -/

/-- C2: a schedule request whose `firesAt` is not strictly in the future
fails: the past-time message is reported to the user, and the registry, the
id counter, every timer and the collaborators are untouched. -/
theorem schedule_action_past (st : AppState) (a : ActionKind) (t now : Int)
    (h : t ≤ now) :
    schedule_action st a t now = ({ st with infoLabel := pastTimeMsg }, noEffects) := by
  unfold schedule_action
  rw [if_pos (by omega)]

theorem schedule_action_past_witness :
    (100 : Int) ≤ 100 ∧
      schedule_action stOne ActionKind.shutdown 100 100 =
        ({ stOne with infoLabel := pastTimeMsg }, noEffects) :=
  ⟨le_refl _, schedule_action_past stOne ActionKind.shutdown 100 100 (le_refl _)⟩

/-- C10: one watchdog poll never mutates the scheduler state: the registry,
the id counter (and even the info label) are exactly what they were before
the poll, whether or not auto-sleep fires. -/
theorem check_inactivity_frame (cfg : Config) (st : AppState) (idle_seconds : Nat) :
    (check_inactivity cfg st idle_seconds).fst.scheduled_events = st.scheduled_events ∧
      (check_inactivity cfg st idle_seconds).fst.last_timer_id = st.last_timer_id ∧
      (check_inactivity cfg st idle_seconds).fst = st := by
  rw [check_inactivity_fst]
  exact ⟨rfl, rfl, rfl⟩

/-- C7 counterexample: with logging enabled and a log file that cannot be
opened, `log_event` returns the write error to its caller — the failure is
propagated, not swallowed (the Python body has no `try`/`except`). -/
theorem log_event_error_propagates :
    log_event true (fun _ => Except.error LogErr.cannotOpen) "Scheduled shutdown at 100" =
      Except.error LogErr.cannotOpen := rfl

/-- C7 amended: when logging is disabled `log_event` does nothing; when
logging is enabled it performs the append and returns the writer outcome
unchanged, so a write failure propagates to the caller. -/
theorem log_event_spec (writeLine : String → Except LogErr Unit) (message : String) :
    log_event false writeLine message = Except.ok () ∧
      log_event true writeLine message = writeLine message :=
  ⟨rfl, rfl⟩

/-- C6 counterexample: the user-facing report of `cancel_all_scheduled_events`
is one fixed string, identical for a registry of two events and a registry of
three, so the operation does not report the count N of events canceled. -/
theorem cancel_all_reports_no_count :
    (cancel_all_scheduled_events stTwo).fst.infoLabel =
        (cancel_all_scheduled_events stThree).fst.infoLabel ∧
      (cancel_all_scheduled_events stTwo).fst.infoLabel = cancelAllMsg ∧
      stTwo.scheduled_events.length = 2 ∧ stThree.scheduled_events.length = 3 :=
  ⟨rfl, rfl, rfl, rfl⟩

/-- C6 amended: `cancel_all_scheduled_events` on any registry leaves it
empty, performs zero ActionExecutor calls, makes one log-append attempt per
canceled event, keeps the id counter, and reports a fixed completion message
(the no-events message on an empty registry) that does not carry the count. -/
theorem cancel_all_spec (st : AppState) :
    (cancel_all_scheduled_events st).fst.scheduled_events = [] ∧
      (cancel_all_scheduled_events st).snd.execCalls = [] ∧
      (cancel_all_scheduled_events st).snd.logs.length = st.scheduled_events.length ∧
      (cancel_all_scheduled_events st).fst.last_timer_id = st.last_timer_id ∧
      (cancel_all_scheduled_events st).fst.infoLabel =
        (if st.scheduled_events.isEmpty then noEventsMsg else cancelAllMsg) := by
  unfold cancel_all_scheduled_events
  by_cases h : st.scheduled_events.isEmpty
  · rw [List.isEmpty_iff] at h
    simp [h, noEffects]
  · simp [h, noEffects]

/-- C1: a countdown that elapses with pre-notification disabled goes
straight from armed to executed: exactly one ActionExecutor call with the
stored actionKind, the entry (alone) removed from the registry, the id
counter untouched and no pre-notification shown. -/
theorem fire_notify_off (cfg : Config) (st : AppState) (timer_id : Nat)
    (ev : ScheduledEvent) (uc : Bool)
    (hn : cfg.notifyEnabled = false)
    (h : List.lookup timer_id st.scheduled_events = some ev) :
    (prepare_for_action cfg st timer_id uc).snd.execCalls = [ev.action] ∧
      (prepare_for_action cfg st timer_id uc).fst.scheduled_events =
        removeEvent st.scheduled_events timer_id ∧
      List.lookup timer_id
        ((prepare_for_action cfg st timer_id uc).fst).scheduled_events = none ∧
      (prepare_for_action cfg st timer_id uc).fst.last_timer_id = st.last_timer_id ∧
      (prepare_for_action cfg st timer_id uc).snd.preNotified = false := by
  unfold prepare_for_action
  rw [h]
  simp only [hn, Bool.not_false, if_true]
  unfold execute_action
  rw [h]
  refine ⟨rfl, rfl, ?_, rfl, rfl⟩
  exact lookup_removeEvent_self st.scheduled_events timer_id

theorem fire_notify_off_witness :
    cfgOff.notifyEnabled = false ∧
      List.lookup 1 stOne.scheduled_events = some evShutdown ∧
      ((prepare_for_action cfgOff stOne 1 false).snd.execCalls = [evShutdown.action] ∧
        (prepare_for_action cfgOff stOne 1 false).fst.scheduled_events =
          removeEvent stOne.scheduled_events 1 ∧
        List.lookup 1 ((prepare_for_action cfgOff stOne 1 false).fst).scheduled_events = none ∧
        (prepare_for_action cfgOff stOne 1 false).fst.last_timer_id = stOne.last_timer_id ∧
        (prepare_for_action cfgOff stOne 1 false).snd.preNotified = false) :=
  ⟨rfl, rfl, fire_notify_off cfgOff stOne 1 evShutdown false rfl rfl⟩

/-- The dialog countdown timer: starting open at `n + 1` remaining seconds,
`n + 1` one-second ticks close the dialog by `accept()` with no
cancellation recorded. -/
theorem dialog_countdown (a : ActionKind) (n : Nat) :
    on_timeout^[n + 1] (⟨a, (n : Int) + 1, false, false⟩ : PreActionDialog) =
      ⟨a, 0, false, true⟩ := by
  induction n with
  | zero =>
    rw [Function.iterate_one]
    unfold on_timeout
    norm_num
  | succ m ih =>
    rw [Function.iterate_succ_apply]
    have hstep : on_timeout (⟨a, ((m : Nat) + 1 : Int) + 1, false, false⟩ : PreActionDialog) =
        (⟨a, (m : Int) + 1, false, false⟩ : PreActionDialog) := by
      unfold on_timeout
      have h1 : ¬ (((m : Nat) + 1 : Int) + 1 - 1 ≤ 0) := by omega
      simp only [if_neg h1]
      norm_num
    have hc : ((m + 1 : Nat) : Int) + 1 = ((m : Nat) + 1 : Int) + 1 := by push_cast; ring
    rw [hc, hstep]
    exact ih

/-- C3: a countdown that elapses with pre-notification enabled shows the
cancelable pre-notification; the configured lead-time seconds of dialog
ticks with no cancellation close it uncanceled, after which the event is
executed with exactly one ActionExecutor call; pressing cancel at any point
records the cancellation, and a canceled dialog yields the canceled
transition with zero ActionExecutor calls. Either way the entry leaves the
registry. -/
theorem fire_notify_on (cfg : Config) (st : AppState) (timer_id : Nat)
    (ev : ScheduledEvent) (uc : Bool) (d : PreActionDialog)
    (hn : cfg.notifyEnabled = true)
    (h : List.lookup timer_id st.scheduled_events = some ev)
    (ht : 1 ≤ cfg.notifySeconds) :
    (prepare_for_action cfg st timer_id uc).snd.preNotified = true ∧
      (prepare_for_action cfg st timer_id uc).fst.scheduled_events =
        removeEvent st.scheduled_events timer_id ∧
      (prepare_for_action cfg st timer_id uc).snd.execCalls =
        (if uc then [] else [ev.action]) ∧
      (prepare_for_action cfg st timer_id uc).fst.last_timer_id = st.last_timer_id ∧
      on_timeout^[cfg.notifySeconds] (initDialog ev.action cfg.notifySeconds) =
        ⟨ev.action, 0, false, true⟩ ∧
      (PreActionDialog.reject d).user_canceled = true := by
  have hdial : on_timeout^[cfg.notifySeconds] (initDialog ev.action cfg.notifySeconds) =
      ⟨ev.action, 0, false, true⟩ := by
    obtain ⟨m, hm⟩ := Nat.exists_eq_add_of_le ht
    rw [hm]
    have hcast : initDialog ev.action (1 + m) =
        (⟨ev.action, (m : Int) + 1, false, false⟩ : PreActionDialog) := by
      unfold initDialog
      have : ((1 + m : Nat) : Int) = (m : Int) + 1 := by push_cast; ring
      rw [this]
    rw [hcast, Nat.add_comm 1 m]
    exact dialog_countdown ev.action m
  unfold prepare_for_action
  rw [h]
  simp only [hn, Bool.not_true, Bool.false_eq_true, if_false]
  cases uc with
  | true =>
    refine ⟨rfl, (cancel_event_found st timer_id true ev h).1, ?_, ?_, hdial, rfl⟩
    · simp [(cancel_event_found st timer_id true ev h).2.2]
    · exact (cancel_event_found st timer_id true ev h).2.1
  | false =>
    refine ⟨rfl, (execute_action_found st timer_id ev h).1, ?_, ?_, hdial, rfl⟩
    · simp [(execute_action_found st timer_id ev h).2.2]
    · exact (execute_action_found st timer_id ev h).2.1

theorem fire_notify_on_witness :
    cfgOn.notifyEnabled = true ∧
      List.lookup 1 stOne.scheduled_events = some evShutdown ∧
      1 ≤ cfgOn.notifySeconds ∧
      ((prepare_for_action cfgOn stOne 1 true).snd.preNotified = true ∧
        (prepare_for_action cfgOn stOne 1 true).fst.scheduled_events =
          removeEvent stOne.scheduled_events 1 ∧
        (prepare_for_action cfgOn stOne 1 true).snd.execCalls =
          (if true then [] else [evShutdown.action]) ∧
        (prepare_for_action cfgOn stOne 1 true).fst.last_timer_id = stOne.last_timer_id ∧
        on_timeout^[cfgOn.notifySeconds] (initDialog evShutdown.action cfgOn.notifySeconds) =
          ⟨evShutdown.action, 0, false, true⟩ ∧
        (PreActionDialog.reject (initDialog ActionKind.shutdown 30)).user_canceled = true) :=
  ⟨rfl, rfl, by decide,
    fire_notify_on cfgOn stOne 1 evShutdown true (initDialog ActionKind.shutdown 30)
      rfl rfl (by decide)⟩

/-- C5 counterexample: with pre-notification enabled, auto-sleep enabled and
a 1-minute timeout, a poll reporting 61 s idle performs the Sleep action
immediately — one direct ActionExecutor call, no pre-notification shown and
no registry entry created — instead of funnelling the request through the
Armed state machine with a cancelable pre-notification countdown. -/
theorem check_inactivity_bypasses_prenotify :
    cfgAutoNotify.notifyEnabled = true ∧
      (check_inactivity cfgAutoNotify initState 61).snd.execCalls = [ActionKind.sleep] ∧
      (check_inactivity cfgAutoNotify initState 61).snd.preNotified = false ∧
      (check_inactivity cfgAutoNotify initState 61).fst = initState :=
  ⟨rfl, rfl, rfl, rfl⟩

/-- C5 amended: whenever auto-sleep is enabled and the probed idle time is at
least `timeoutMinutes * 60` seconds, the watchdog performs exactly one
immediate Sleep ActionExecutor call directly, bypassing the registry, the
Armed state machine and the pre-notification step regardless of the
pre-notification setting. -/
theorem check_inactivity_direct_sleep (cfg : Config) (st : AppState) (idle_seconds : Nat)
    (he : cfg.autoSleepEnabled = true) (hi : cfg.timeoutMinutes * 60 ≤ idle_seconds) :
    check_inactivity cfg st idle_seconds =
      (st, ⟨[ActionKind.sleep], [], false⟩) := by
  unfold check_inactivity
  simp [he, hi, perform_system_action]

theorem check_inactivity_direct_sleep_witness :
    cfgAutoNotify.autoSleepEnabled = true ∧ cfgAutoNotify.timeoutMinutes * 60 ≤ 61 ∧
      check_inactivity cfgAutoNotify initState 61 =
        (initState, ⟨[ActionKind.sleep], [], false⟩) :=
  ⟨rfl, by decide,
    check_inactivity_direct_sleep cfgAutoNotify initState 61 rfl (by decide)⟩

/-- C4: canceling an event present in the registry removes it (with its
pending countdown timer), the cancel itself performs no ActionExecutor call,
and a countdown that fires for that id at any later point of any run — the
stale fire — finds the id gone and performs no action and no state change. -/
theorem cancel_no_stale (cfg : Config) (st : AppState) (timer_id : Nat)
    (ut uc : Bool) (ops : List Op) (ev : ScheduledEvent)
    (h : List.lookup timer_id st.scheduled_events = some ev)
    (hb : ∀ k ∈ keys st, k ≤ st.last_timer_id) :
    List.lookup timer_id ((cancel_event st timer_id ut).fst).scheduled_events = none ∧
      (cancel_event st timer_id ut).snd.execCalls = [] ∧
      prepare_for_action cfg (runState cfg (cancel_event st timer_id ut).fst ops)
          timer_id uc =
        (runState cfg (cancel_event st timer_id ut).fst ops, noEffects) := by
  have hmem : timer_id ∈ keys st := mem_keys_of_lookup_eq_some _ _ _ h
  have hle : timer_id ≤ st.last_timer_id := hb _ hmem
  have h1 : List.lookup timer_id ((cancel_event st timer_id ut).fst).scheduled_events =
      none := cancel_removes_self st timer_id ut
  have hlast : (cancel_event st timer_id ut).fst.last_timer_id = st.last_timer_id :=
    (cancel_events_cases st timer_id ut).2
  have habs : List.lookup timer_id
      (runState cfg (cancel_event st timer_id ut).fst ops).scheduled_events = none :=
    run_preserves_absent cfg timer_id ops _ h1 (by rw [hlast]; exact hle)
  exact ⟨h1, (cancel_event_found st timer_id ut ev h).2.2,
    prepare_for_action_absent _ _ _ _ habs⟩

theorem cancel_no_stale_witness :
    List.lookup 1 stOne.scheduled_events = some evShutdown ∧
      (∀ k ∈ keys stOne, k ≤ stOne.last_timer_id) ∧
      (List.lookup 1 ((cancel_event stOne 1 false).fst).scheduled_events = none ∧
        (cancel_event stOne 1 false).snd.execCalls = [] ∧
        prepare_for_action cfgOff (runState cfgOff (cancel_event stOne 1 false).fst
            [Op.poll 61]) 1 false =
          (runState cfgOff (cancel_event stOne 1 false).fst [Op.poll 61], noEffects)) :=
  ⟨rfl, by decide,
    cancel_no_stale cfgOff stOne 1 false false [Op.poll 61] evShutdown rfl (by decide)⟩

/-- C8: in every state reachable from startup each id present in the
registry maps to exactly one entry (the key list has no duplicates, and
presence in the registry is exactly non-terminality in the code); an event
that executes or is canceled — via a countdown fire or an explicit cancel —
leaves the registry in that very transition and is never retained. -/
theorem registry_nonterminal_invariant (cfg : Config) (ops : List Op) (st : AppState)
    (timer_id : Nat) (uc ut : Bool) :
    (keys (runState cfg initState ops)).Nodup ∧
      List.lookup timer_id
        ((applyOp cfg st (Op.fire timer_id uc)).fst).scheduled_events = none ∧
      List.lookup timer_id
        ((applyOp cfg st (Op.cancel timer_id ut)).fst).scheduled_events = none := by
  refine ⟨(inv_runState cfg ops initState inv_init).1, ?_, ?_⟩
  · simp only [applyOp]
    exact prepare_removes_self cfg st timer_id uc
  · simp only [applyOp]
    exact cancel_removes_self st timer_id ut

/-- The ids handed out along a run all exceed the id counter of the state
the run started from. -/
theorem assignedIds_gt (cfg : Config) :
    ∀ (ops : List Op) (st : AppState) (i : Nat),
      i ∈ assignedIds cfg st ops → st.last_timer_id < i := by
  intro ops
  induction ops with
  | nil =>
    intro st i hi
    cases hi
  | cons op ops ih =>
    intro st i hi
    simp only [assignedIds] at hi
    rw [List.mem_append] at hi
    cases hi with
    | inl hm =>
      by_cases hlt : st.last_timer_id < ((applyOp cfg st op).fst).last_timer_id
      · rw [if_pos hlt] at hm
        rw [List.mem_singleton] at hm
        omega
      · rw [if_neg hlt] at hm
        cases hm
    | inr hm =>
      have hgt := ih _ i hm
      have hmono := applyOp_last_mono cfg st op
      omega

/-- C9: along any run of operations, the ids assigned by successful schedule
requests form a strictly increasing sequence — each new id is strictly
greater than every id assigned before it — and hence are pairwise distinct:
an id is never reused, not even after its event executed or was canceled. -/
theorem assigned_ids_strictly_increasing (cfg : Config) (st : AppState) (ops : List Op) :
    List.Pairwise (fun a b => a < b) (assignedIds cfg st ops) ∧
      (assignedIds cfg st ops).Nodup := by
  have main : ∀ (ops : List Op) (st : AppState),
      List.Pairwise (fun a b : Nat => a < b) (assignedIds cfg st ops) := by
    intro ops
    induction ops with
    | nil =>
      intro st
      exact List.Pairwise.nil
    | cons op ops ih =>
      intro st
      simp only [assignedIds]
      by_cases hlt : st.last_timer_id < ((applyOp cfg st op).fst).last_timer_id
      · rw [if_pos hlt]
        rw [List.singleton_append]
        refine List.Pairwise.cons ?_ (ih _)
        intro j hj
        exact assignedIds_gt cfg ops _ j hj
      · rw [if_neg hlt]
        rw [List.nil_append]
        exact ih _
  refine ⟨main ops st, List.Pairwise.imp ?_ (main ops st)⟩
  intro a b hab
  exact Nat.ne_of_lt hab

end TaskNap
